import Mathlib

/-!
# A verification development for `pysh` (pysh.py)

Shallow embedding of the parsing, command-model, history, job-table and
pipeline-leader logic of the `pysh` shell, together with theorems settling
the behavioural claims about it.  Operating-system effects (fork results,
wait statuses, signals, printed lines) are made explicit: fallible Python
operations return `Except`, signals and prints are collected in lists, and
OS-determined outcomes (child pids, wait statuses, interruption of a wait)
are passed as parameters.
-/

set_option autoImplicit false

namespace PyshModel

instance {ε α : Type} [DecidableEq ε] [DecidableEq α] : DecidableEq (Except ε α) := fun
  | .error e, .error e' =>
    if h : e = e' then .isTrue (by rw [h])
    else .isFalse (by intro hc; cases hc; exact h rfl)
  | .error _, .ok _ => .isFalse (by intro hc; cases hc)
  | .ok _, .error _ => .isFalse (by intro hc; cases hc)
  | .ok a, .ok a' =>
    if h : a = a' then .isTrue (by rw [h])
    else .isFalse (by intro hc; cases hc; exact h rfl)

/-- Model of Python `str.join`: `sep.join(l)`. -/
def pyJoin (sep : String) : List String → String
  | [] => ""
  | [x] => x
  | x :: y :: xs => x ++ sep ++ pyJoin sep (y :: xs)

/-- A pipeline stage as built by `Pysh.start` (lines 87–99): either an
external `Command` or a `BuiltInCommand`, each carrying its argument
vector and background flag. -/
inductive Stage
  | external (arguments : List String) (background : Bool)
  | builtin (arguments : List String) (background : Bool)
deriving DecidableEq, Repr

/-- The command value dispatched by the read-eval loop: a single stage, or a
`CommandPipeList` of stages (lines 92–99; inner stages are always built with
the default `background=False`). -/
inductive Cmd
  | single (s : Stage)
  | pipeList (stages : List Stage) (background : Bool)
deriving DecidableEq, Repr

/-- `Command.__str__` (lines 202–208): `' '.join(self.arguments + [ampersand])`
where `ampersand` is `'&'` when background and `''` otherwise.
`BuiltInCommand` inherits this rendering. -/
def Command.str (arguments : List String) (background : Bool) : String :=
  pyJoin " " (arguments ++ [if background then "&" else ""])

/-- Rendering of a stage (both classes use `Command.__str__`). -/
def Stage.str : Stage → String
  | .external args bg => Command.str args bg
  | .builtin args bg => Command.str args bg

/-- Rendering of a command: `CommandPipeList.__str__` (lines 338–339) joins the
stage renderings with `' | '` and ignores its own background flag. -/
def Cmd.str : Cmd → String
  | .single s => s.str
  | .pipeList stages _ => pyJoin " | " (stages.map Stage.str)

/-- One line of `History.__str__` (lines 359–368): `'[%i]\t%s' % (index + 1, command)`. -/
def historyLine (i : Nat) (c : Cmd) : String :=
  "[" ++ toString i ++ "]\t" ++ c.str

/-- `History.__str__`: the numbered lines joined by newlines. -/
def History.str (commands : List Cmd) : String :=
  pyJoin "\n" (commands.enum.map fun p => historyLine (p.1 + 1) p.2)

/-! ## Tokenizer and line parsing (`Pysh.parse_line`, lines 128–140)

`parse_line` runs `shlex` in posix mode with `whitespace_split = False` and
`wordchars` extended by `'#$+-,./?@^='`, then groups the token stream on the
separator `'|'`.  The tokenizer below models the `shlex` state machine on the
fragment the shell exercises: lines without quote or comment characters, over
ASCII.  Maximal runs of word characters form one token, whitespace separates
tokens, and any other character (such as `&` and `|`) is a token by itself. -/

/-- Word characters: `shlex`'s default alphanumerics and underscore plus the
characters added on line 137. -/
def isWordChar (c : Char) : Bool :=
  c.isAlphanum || c == '_' || ("#$+-,./?@^=".toList.contains c)

/-- One step of the tokenizer fold: accumulated tokens and current word. -/
def tokStep (acc : List String × String) (c : Char) : List String × String :=
  let (toks, cur) := acc
  if isWordChar c then (toks, cur.push c)
  else if c.isWhitespace then
    (if cur = "" then (toks, "") else (toks ++ [cur], ""))
  else
    ((if cur = "" then toks else toks ++ [cur]) ++ [String.singleton c], "")

/-- The token stream of a line (model of iterating the `shlex` object). -/
def shlexTokens (line : String) : List String :=
  let (toks, cur) := line.toList.foldl tokStep ([], "")
  if cur = "" then toks else toks ++ [cur]

/-- The `itertools.groupby` split of line 139–140: maximal runs of
non-`'|'` tokens (separator groups are dropped; `groupby` never yields an
empty group, so no empty segment arises here). -/
def splitPipesAux : List String → List String → List (List String)
  | cur, [] => if cur = [] then [] else [cur.reverse]
  | cur, t :: rest =>
    if t = "|" then
      (if cur = [] then splitPipesAux [] rest else cur.reverse :: splitPipesAux [] rest)
    else splitPipesAux (t :: cur) rest

/-- `Pysh.parse_line`: tokenize, then split on `'|'`. -/
def parse_line (line : String) : List (List String) :=
  splitPipesAux [] (shlexTokens line)

/-! ## The read-eval loop's per-line command construction (lines 76–99)

`processSegments` models lines 78–99 of `Pysh.start` on the segment list
returned by `parse_line`: the `continue` on an empty list, the trailing-`&`
check `command_strings[-1][-1] == '&'` and pop, and the construction of a
`Command`/`BuiltInCommand`/`CommandPipeList`.  A Python `IndexError`
(indexing an empty list) is an uncaught exception that crashes the loop and
is modelled as `Except.error`. -/

def builtInCommands : List String :=
  ["h", "history", "cd", "pwd", "exit", "jobs", "fg", "bg", "kill"]

/-- Build the stage for one segment (lines 88–91 and 95–98); `sub_command[0]`
raises `IndexError` on an empty segment. -/
def buildStage (seg : List String) (background : Bool) : Except String Stage :=
  match seg.head? with
  | none => .error "IndexError"
  | some w0 =>
    if w0 ∈ builtInCommands then .ok (.builtin seg background)
    else .ok (.external seg background)

/-- Build the pipeline's stage list (lines 93–98): each inner stage is
constructed with the default `background=False`. -/
def buildStages : List (List String) → Except String (List Stage)
  | [] => .ok []
  | seg :: rest => do
    let s ← buildStage seg false
    let ss ← buildStages rest
    .ok (s :: ss)

/-- Lines 78–99 of `Pysh.start`: `.ok none` models `continue` (empty input),
`.ok (some c)` the constructed command, `.error` an uncaught `IndexError`. -/
def processSegments (segs : List (List String)) : Except String (Option Cmd) :=
  match segs.getLast? with
  | none => .ok none
  | some lastSeg =>
    match lastSeg.getLast? with
    | none => .error "IndexError"
    | some w =>
      let background := w == "&"
      let segs' :=
        if background then segs.dropLast ++ [lastSeg.dropLast]
        else segs
      if segs'.length < 2 then
        match segs'.head? with
        | none => .error "IndexError"
        | some seg => do
          let s ← buildStage seg background
          .ok (some (.single s))
      else do
        let ss ← buildStages segs'
        .ok (some (.pipeList ss background))

/-- The whole per-line front end: parse, then build the command. -/
def processLine (line : String) : Except String (Option Cmd) :=
  processSegments (parse_line line)

/-! ## History (`History`, lines 342–386)

History state is the list `self.commands`.  `History.run` executes a stored
command; command execution itself is opaque here, so the result records which
command was executed, the printed output, the new command list, and the
Python return value (`True`, or `None` from falling off the end). -/

/-- Result of `History.run`. -/
structure HistRun where
  output : List String
  executed : Option Cmd
  commands : List Cmd
  retVal : Option Bool
deriving DecidableEq, Repr

/-- Python list indexing `l[i]` with an `int` index: negative indices count
from the end; out of range is `none` (an `IndexError` at the call site). -/
def pyGet (l : List Cmd) (i : Int) : Option Cmd :=
  if 0 ≤ i then l.get? i.toNat
  else if (-i) ≤ (l.length : Int) then l.get? (l.length - (-i).toNat)
  else none

/-- `History.run` (lines 370–380): the range guard only checks
`command_number > len(self.commands)`; otherwise `self.commands[command_number - 1]`
is fetched with Python indexing, run, and appended. -/
def History.run (commands : List Cmd) (command_number : Int) :
    Except String HistRun :=
  if command_number > (commands.length : Int) then
    .ok ⟨["no record for: " ++ toString command_number], none, commands, some true⟩
  else
    match pyGet commands (command_number - 1) with
    | none => .error "IndexError"
    | some c => .ok ⟨[], some c, commands ++ [c], none⟩

/-! ## The job table (`Jobs` and `Job`, lines 389–511)

A `Job` is the triple stored by the source; `JobsState` is the shared state
of the `Jobs` borg (`jobs`, `stopped_stack`, `current_pid`).  Signals sent
are collected as `(pid, signal-name)` pairs. -/

structure Job where
  command : Cmd
  pid : Nat
  jobNumber : Nat
deriving DecidableEq, Repr

structure JobsState where
  jobs : List Job
  stopped : List Job
  currentPid : Nat
deriving DecidableEq, Repr

/-- The job-number assignment shared by `Jobs.add_job` (lines 419–421) and
`Jobs.run` (lines 465–467): `1`, or the LAST list element's number plus one
(`self.jobs[-1].job_number + 1`). -/
def Jobs.newJobNumber (jobs : List Job) : Nat :=
  match jobs.getLast? with
  | none => 1
  | some j => j.jobNumber + 1

/-- `Jobs.add_job` (lines 417–429): append a new job with the next number and
print the job-started line.  (The reaper thread spawn is an OS effect outside
the model.) -/
def Jobs.add_job (s : JobsState) (command : Cmd) (pid : Nat) :
    JobsState × List String :=
  let n := Jobs.newJobNumber s.jobs
  let job : Job := ⟨command, pid, n⟩
  ({ s with jobs := s.jobs ++ [job] },
   ["[" ++ toString n ++ "]\t" ++ command.str])

/-- A wait status as the source uses it: `None`, an exit status, or the
string `'stopped'` substituted on `InterruptedError` (lines 196–198). -/
inductive PStatus
  | pnone
  | code (n : Nat)
  | stopped
deriving DecidableEq, Repr

/-- What a `run` call returns to the loop: the `(pid, status)` tuple of
`Command.run`/`CommandPipeList.run`, or the non-tuple value of
`BuiltInCommand.run` (`True`, `False` or `None`). -/
inductive ShellResult
  | tup (pid : Nat) (st : PStatus)
  | ret (v : Option Bool)
deriving DecidableEq, Repr

/-- `Jobs.run` (lines 462–474) after `command.run()` produced `result`:
when the result is a tuple with status `'stopped'`, register a new stopped
job numbered `newJobNumber`, with pid `self.current_pid`, appended to both
`jobs` and `stopped_stack`, and print the job line; `current_pid` is reset
to 0 in every case. -/
def Jobs.run (s : JobsState) (command : Cmd) (result : ShellResult) :
    JobsState × List String :=
  match result with
  | .tup _ .stopped =>
    let n := Jobs.newJobNumber s.jobs
    let job : Job := ⟨command, s.currentPid, n⟩
    ({ jobs := s.jobs ++ [job], stopped := s.stopped ++ [job], currentPid := 0 },
     ["[" ++ toString n ++ "]\t" ++ command.str])
  | _ => ({ s with currentPid := 0 }, [])

/-- Python exceptions raised by the job-table code: `NoSuchJob` (caught by
the built-in dispatcher), `ValueError` from `list.index`, `IndexError` from
`list.pop` on an empty list. -/
inductive PyErr
  | noSuchJob (n : Int)
  | valueError
  | indexError
deriving DecidableEq, Repr

/-- `Jobs.get_job_by_number` (lines 476–480): first job in `jobs` with the
given number, else raise `NoSuchJob`. -/
def Jobs.get_job_by_number (jobs : List Job) (n : Int) : Except PyErr Job :=
  match jobs.find? (fun j => (j.jobNumber : Int) == n) with
  | some j => .ok j
  | none => .error (.noSuchJob n)

/-- Python `list.index` (raises `ValueError` when absent). -/
def pyIndexOf (l : List Job) (a : Job) : Except PyErr Nat :=
  match l.findIdx? (fun j => j == a) with
  | some i => .ok i
  | none => .error .valueError

/-- Python `list.pop(i)` (raises `IndexError` when out of range). -/
def pyPop (l : List Job) (i : Nat) : Except PyErr (Job × List Job) :=
  match l.get? i with
  | some x => .ok (x, l.take i ++ l.drop (i + 1))
  | none => .error .indexError

/-- Python `list.pop()` with no argument: pop the last element. -/
def pyPopLast (l : List Job) : Except PyErr (Job × List Job) :=
  match l.getLast? with
  | some x => .ok (x, l.dropLast)
  | none => .error .indexError

/-- Outcome of the `os.waitpid` in a foreground resume: normal completion
(`(child, status)`), or interruption by the SIGTSTP handler
(`InterruptedError`, lines 448–450). -/
inductive WaitOutcome
  | finished (pid status : Nat)
  | interrupted
deriving DecidableEq, Repr

/-- `Jobs.start_process` (lines 431–454).  With an empty stopped stack it
prints `no stopped processes` and returns.  Otherwise the target job is
popped from the stopped stack (by number via `get_job_by_number` and
`stopped_stack.index`, or the top), `current_pid` is cleared, SIGCONT is
sent; in the foreground case the job is also popped from `jobs` and waited
for, and on an interrupted wait appended back to both `stopped_stack` and
`jobs`.  (The background case spawns a reaper thread, outside the model.) -/
def Jobs.start_process (s : JobsState) (job_number : Int) (background : Bool)
    (w : WaitOutcome) :
    Except PyErr (JobsState × List String × List (Nat × String)) :=
  if s.stopped = [] then .ok (s, ["no stopped processes"], [])
  else do
    let (job, stopped1) ←
      if job_number ≠ 0 then do
        let j ← Jobs.get_job_by_number s.jobs job_number
        let i ← pyIndexOf s.stopped j
        pyPop s.stopped i
      else pyPopLast s.stopped
    let sigs := [(job.pid, "SIGCONT")]
    if background then
      .ok ({ s with stopped := stopped1, currentPid := 0 }, [], sigs)
    else do
      let i ← pyIndexOf s.jobs job
      let (_, jobs1) ← pyPop s.jobs i
      match w with
      | .finished _ _ =>
        .ok ({ jobs := jobs1, stopped := stopped1, currentPid := 0 }, [], sigs)
      | .interrupted =>
        .ok ({ jobs := jobs1 ++ [job], stopped := stopped1 ++ [job],
               currentPid := 0 }, [], sigs)

/-- The loop body of `Jobs.kill_all` (lines 506–511): one SIGKILL per job,
in list order; nothing is removed. -/
def killAllLoop : List Job → List (Nat × String)
  | [] => []
  | j :: rest => (j.pid, "SIGKILL") :: killAllLoop rest

/-- `Jobs.kill_all`: the state after, and the signals sent. -/
def Jobs.kill_all (s : JobsState) : JobsState × List (Nat × String) :=
  (s, killAllLoop s.jobs)

/-! ## The built-in dispatcher's return value (`BuiltInCommand.run`, lines 211–287)

The dispatcher's return value depends only on the programme name, the
arguments and the history state, never on the job table: `cd`, `pwd`,
`jobs`, `fg`, `bg` and `kill` all fall through to line 287
(`return self.programme not in ('h', 'history')`), catching `NoSuchJob`
and `FileNotFoundError` on the way; `exit` never returns; `h`/`history`
with an argument return `History.run`'s value, bare `h`/`history` return
`True` from line 284 when the history is non-empty and fall through to
line 287 when it is empty.  `int(...)` on a non-numeric argument raises
`ValueError`; OS errors other than the caught `FileNotFoundError` are
outside the model. -/

/-- The dispatcher outcome: a returned value, no return (`exit`), or an
uncaught exception. -/
inductive BRet
  | noRet
  | exc (msg : String)
  | val (v : Option Bool)
deriving DecidableEq, Repr

/-- Digit-string to number, `none` when empty or not all digits. -/
def digitsToNat (cs : List Char) : Option Nat :=
  if cs = [] then none
  else if cs.all Char.isDigit then
    some (cs.foldl (fun n c => n * 10 + (c.toNat - '0'.toNat)) 0)
  else none

/-- Model of Python `int(s)` restricted to plain decimal literals with an
optional sign (the only forms the shell's inputs exercise). -/
def pyInt (a : String) : Option Int :=
  match a.toList with
  | '-' :: rest => (digitsToNat rest).map (fun n => -(n : Int))
  | '+' :: rest => (digitsToNat rest).map (fun n => (n : Int))
  | cs => (digitsToNat cs).map (fun n => (n : Int))

/-- The return value of `BuiltInCommand.run` (lines 211–287). -/
def BuiltInCommand.runRet (arguments : List String) (histCmds : List Cmd) :
    BRet :=
  let programme := arguments.headD ""
  if programme = "exit" then .noRet
  else if programme = "h" ∨ programme = "history" then
    if arguments.length > 1 then
      match pyInt (arguments.getD 1 "") with
      | none => .exc "ValueError"
      | some n =>
        match History.run histCmds n with
        | .error e => .exc e
        | .ok r => .val r.retVal
    else if histCmds.length ≠ 0 then .val (some true)
    else .val (some false)
  else if (programme = "fg" ∨ programme = "bg" ∨ programme = "kill") ∧
          arguments.length > 1 ∧ pyInt (arguments.getD 1 "") = none then
    .exc "ValueError"
  else .val (some true)

/-- The `fg`/`bg` branches of the dispatcher (lines 243–262) acting on the
job table: parse the optional job number, call `start_process`, catch
`NoSuchJob` and print it.  `background` is false for `fg`, true for `bg`. -/
def BuiltInCommand.fgBg (s : JobsState) (arguments : List String)
    (background : Bool) (w : WaitOutcome) :
    Except PyErr (JobsState × List String × List (Nat × String)) :=
  if arguments.length > 1 then
    match pyInt (arguments.getD 1 "") with
    | none => .error .valueError
    | some n =>
      match Jobs.start_process s n background w with
      | .error (.noSuchJob m) => .ok (s, ["no such job: " ++ toString m], [])
      | .error e => .error e
      | .ok r => .ok r
  else Jobs.start_process s 0 background w

/-! ## The read-eval loop's result handling (`Pysh.start`, lines 101–108) -/

/-- What `self.jobs.run(command)` hands back to the loop: a `ShellResult`,
or no value because the command exited the shell or raised. -/
inductive RunOutcome
  | result (r : ShellResult)
  | exited
  | raised (msg : String)
deriving DecidableEq, Repr

/-- The result and the number of `os.fork` calls made in the shell process
by `command.run()`: a `BuiltInCommand` runs the dispatcher in-process
(no fork) and yields its non-tuple value; a `Command` forks once and yields
the `(pid, status)` tuple (lines 162–199); a `CommandPipeList` forks the
pipeline leader once (lines 298–336).  `pid` and `st` are the
OS-determined child pid and wait status. -/
def Cmd.runModel (c : Cmd) (histCmds : List Cmd) (pid : Nat) (st : PStatus) :
    RunOutcome × Nat :=
  match c with
  | .single (.builtin args _) =>
    (match BuiltInCommand.runRet args histCmds with
     | .val v => .result (.ret v)
     | .noRet => .exited
     | .exc m => .raised m, 0)
  | .single (.external _ _) => (.result (.tup pid st), 1)
  | .pipeList _ _ => (.result (.tup pid st), 1)

/-- Lines 102–105: `add_job` is called exactly when the result is a tuple
whose status is `None`. -/
def loopRegistersJob : RunOutcome → Bool
  | .result (.tup _ .pnone) => true
  | _ => false

/-- Line 107: `if result:` — Python truthiness of the result.  A non-empty
tuple is always truthy; `True` is truthy; `False` and `None` are not. -/
def loopAppends : ShellResult → Bool
  | .tup _ _ => true
  | .ret (some v) => v
  | .ret none => false

/-! ## The pipeline leader (`CommandPipeList.run`, lines 298–336)

The leader child iterates over `self.commands[:-1]`, creating a pipe and
spawning each stage with `temp_bg=True`, then runs the last stage against
`stdout` and calls `exit()`.  The model tracks the file descriptors the
leader opens via `os.pipe` (allocated from a counter starting at 3), the
descriptors it explicitly closes (the source contains no `os.close` call),
the spawn records, and the leader's own exit status: line 322 discards the
`(child, status)` result of the last stage and line 325 calls `exit()` with
no argument, i.e. `SystemExit(None)`, so the leader's exit status is 0. -/

structure SpawnRec where
  readFd : Nat
  writeFd : Nat
  tempBg : Bool
deriving DecidableEq, Repr

structure LeaderSt where
  nextFd : Nat
  openFds : List Nat
  spawns : List SpawnRec
deriving DecidableEq, Repr

/-- The loop of lines 311–319 over all but the last stage. -/
def leaderLoop : List Stage → LeaderSt → Nat → LeaderSt × Nat
  | [], st, lastRead => (st, lastRead)
  | _ :: rest, st, lastRead =>
    let r := st.nextFd
    let w := st.nextFd + 1
    leaderLoop rest
      { nextFd := st.nextFd + 2,
        openFds := st.openFds ++ [r, w],
        spawns := st.spawns ++ [⟨lastRead, w, true⟩] } r

structure LeaderRun where
  spawns : List SpawnRec
  openFds : List Nat
  closedFds : List Nat
  exitCode : Nat
deriving DecidableEq, Repr

/-- The whole leader body (lines 305–325).  `lastStatus` is the exit status
the last stage terminates with; the leader never closes a descriptor and
exits 0 regardless of `lastStatus`. -/
def CommandPipeList.leaderRun (stages : List Stage) (_lastStatus : Nat) :
    LeaderRun :=
  let (st, lastRead) := leaderLoop stages.dropLast ⟨3, [], []⟩ 0
  { spawns := st.spawns ++ [⟨lastRead, 1, false⟩],
    openFds := st.openFds,
    closedFds := [],
    exitCode := 0 }

/-! ## Concrete values used across the theorems -/

/-- The command built from the input `pwd`. -/
def pwdCmd : Cmd := Cmd.single (Stage.builtin ["pwd"] false)

/-- The first stage of `echo hello | tr a-z A-Z`. -/
def echoStage : Stage := Stage.external ["echo", "hello"] false

/-- The second stage of `echo hello | tr a-z A-Z`. -/
def trStage : Stage := Stage.external ["tr", "a-z", "A-Z"] false

/-! ## Helper lemmas -/

theorem killAllLoop_eq_map (l : List Job) :
    killAllLoop l = l.map (fun j => (j.pid, "SIGKILL")) := by
  induction l with
  | nil => rfl
  | cons j rest ih => simp [killAllLoop, ih]

theorem pyJoin_concat (sep : String) (l : List String) (x : String)
    (h : l ≠ []) : pyJoin sep (l ++ [x]) = pyJoin sep l ++ sep ++ x := by
  induction l with
  | nil => exact absurd rfl h
  | cons a rest ih =>
    cases rest with
    | nil => rfl
    | cons b t =>
      have ih' := ih (List.cons_ne_nil b t)
      show a ++ sep ++ pyJoin sep ((b :: t) ++ [x]) =
        a ++ sep ++ pyJoin sep (b :: t) ++ sep ++ x
      rw [ih']
      simp [String.append_assoc]

theorem newJobNumber_last (l : List Job) (x : Job) :
    Jobs.newJobNumber (l ++ [x]) = x.jobNumber + 1 := by
  simp [Jobs.newJobNumber, List.getLast?_concat]

theorem mem_lt_newJobNumber (jobs : List Job)
    (hs : jobs.Pairwise (fun a b => a.jobNumber < b.jobNumber)) :
    ∀ j ∈ jobs, j.jobNumber < Jobs.newJobNumber jobs := by
  induction jobs using List.reverseRecOn with
  | nil => intro j hj; cases hj
  | append_singleton l x ih =>
    intro j hj
    rw [newJobNumber_last]
    rcases List.mem_append.mp hj with hl | hx
    · have := (List.pairwise_append.mp hs).2.2 j hl x (List.mem_singleton_self x)
      omega
    · rw [List.mem_singleton.mp hx]
      omega

/-! ## The claims -/

/-- The job-table state reached after two foreground commands (pids 10
and 20) are stopped in turn by Ctrl-Z, each registered through `Jobs.run`:
jobs `[1]` and `[2]`, both on the stopped stack. -/
def c1state : JobsState :=
  (Jobs.run { (Jobs.run ⟨[], [], 10⟩
      (Cmd.single (Stage.external ["sleep", "100"] false)) (.tup 10 .stopped)).1
      with currentPid := 20 }
    (Cmd.single (Stage.external ["sleep", "200"] false)) (.tup 20 .stopped)).1

/-- Job `[1]` of the `c1state` scenario. -/
def c1j1 : Job := ⟨Cmd.single (Stage.external ["sleep", "100"] false), 10, 1⟩

/-- Job `[2]` of the `c1state` scenario. -/
def c1j2 : Job := ⟨Cmd.single (Stage.external ["sleep", "200"] false), 20, 2⟩

/-- C1 counterexample: in a session with stopped jobs `[1]` and `[2]`, the
foreground resume `fg 1` that is re-stopped re-appends job 1 at the end of
the job list; the next assigned job number is then `1 + 1 = 2`, which does
NOT exceed live job `[2]`'s number — the number 2 is reused while a job
carrying it is still in the table, refuting the claim's in-particular case. -/
theorem C1_counterexample :
    c1state = ⟨[c1j1, c1j2], [c1j1, c1j2], 0⟩ ∧
    Jobs.start_process c1state 1 false .interrupted =
      .ok (⟨[c1j2, c1j1], [c1j2, c1j1], 0⟩, [], [(10, "SIGCONT")]) ∧
    Jobs.newJobNumber [c1j2, c1j1] = 2 ∧
    c1j2.jobNumber = 2 ∧
    ¬ c1j2.jobNumber < Jobs.newJobNumber [c1j2, c1j1] := by decide

/-- C1 (amended): job numbers are assigned at insertion as the LAST job's
number plus one (`self.jobs[-1].job_number + 1`), starting at 1 when the
table is empty.  As long as the job list is sorted by job number — which a
foreground resume that is re-stopped and re-appended can break — the
assigned number exceeds every live job's number. -/
theorem C1_amended (s : JobsState) (c : Cmd) (pid : Nat)
    (hs : s.jobs.Pairwise (fun a b => a.jobNumber < b.jobNumber)) :
    (s.jobs = [] → Jobs.newJobNumber s.jobs = 1) ∧
    (∀ j ∈ s.jobs, j.jobNumber < Jobs.newJobNumber s.jobs) ∧
    (Jobs.add_job s c pid).1.jobs =
      s.jobs ++ [⟨c, pid, Jobs.newJobNumber s.jobs⟩] := by
  refine ⟨?_, mem_lt_newJobNumber s.jobs hs, rfl⟩
  intro h
  rw [h]
  rfl

/-- Witness for `C1_amended` at a sorted two-job table. -/
theorem C1_amended_witness :
    ([c1j1, c1j2] : List Job).Pairwise (fun a b => a.jobNumber < b.jobNumber) ∧
    (∀ j ∈ [c1j1, c1j2], j.jobNumber < Jobs.newJobNumber [c1j1, c1j2]) := by
  have h : ([c1j1, c1j2] : List Job).Pairwise
      (fun a b => a.jobNumber < b.jobNumber) := by decide
  exact ⟨h, (C1_amended ⟨[c1j1, c1j2], [], 0⟩ pwdCmd 30 h).2.1⟩

/-- C2 counterexample: `History.run 0` on a one-entry history is NOT caught
by the range guard (`0 > 1` is false); Python indexing `commands[-1]`
fetches the most recent entry, which is re-executed and re-appended —
refuting "prints `no record for: 0`, executes no command, leaves history
unchanged" at n = 0. -/
theorem C2_counterexample :
    History.run [pwdCmd] 0 = .ok ⟨[], some pwdCmd, [pwdCmd, pwdCmd], none⟩ ∧
    (some pwdCmd ≠ (none : Option Cmd)) ∧
    ([pwdCmd, pwdCmd] ≠ [pwdCmd]) := by decide

/-- C2 (amended): for every history index n strictly greater than the
history length, `History.run n` prints `no record for: n`, executes no
command, leaves the history unchanged and returns `True`.  Indices n ≤ 0
are not caught by the range check: with a non-empty history, n = 0 replays
and re-appends the most recent entry, and with an empty history it raises
`IndexError`. -/
theorem C2_amended (commands : List Cmd) (n : Int)
    (h : n > (commands.length : Int)) :
    History.run commands n =
      .ok ⟨["no record for: " ++ toString n], none, commands, some true⟩ := by
  simp [History.run, h]

/-- Witness for `C2_amended` at n = 2 on a one-entry history. -/
theorem C2_amended_witness :
    ((2 : Int) > (([pwdCmd] : List Cmd).length : Int)) ∧
    History.run [pwdCmd] 2 =
      .ok ⟨["no record for: 2"], none, [pwdCmd], some true⟩ :=
  ⟨by decide, Eq.trans (C2_amended [pwdCmd] 2 (by decide)) (by decide)⟩

/-- C3 counterexample: a bare `history` invocation with a non-empty history
hits `return True` on line 284, not the `False` of line 287 — so the
dispatcher's value is NOT false for every argument form of `history`, and
the loop records the `history` command itself. -/
theorem C3_counterexample :
    BuiltInCommand.runRet ["history"] [pwdCmd] = .val (some true) ∧
    BRet.val (some true) ≠ BRet.val (some false) := by decide

/-- C3 (amended): the dispatcher's value is `True` for every returning
invocation of `cd`, `pwd`, `jobs`, `fg`, `bg` and `kill`; for `h`/`history`
it is `False` only when invoked bare with an EMPTY history — bare with a
non-empty history returns `True` (line 284), out-of-range replay returns
`True` (via `History.run`), and in-range replay returns `None`.  The loop
appends a built-in's command to history exactly when the value is `True`. -/
theorem C3_amended :
    (∀ (args : List String) (hist : List Cmd),
      args.headD "" ∈ (["cd", "pwd", "jobs"] : List String) →
      BuiltInCommand.runRet args hist = .val (some true)) ∧
    (∀ (args : List String) (hist : List Cmd),
      args.headD "" ∈ (["fg", "bg", "kill"] : List String) →
      (args.length ≤ 1 ∨ (pyInt (args.getD 1 "")).isSome) →
      BuiltInCommand.runRet args hist = .val (some true)) ∧
    (∀ (p : String) (hist : List Cmd), (p = "h" ∨ p = "history") →
      hist ≠ [] → BuiltInCommand.runRet [p] hist = .val (some true)) ∧
    (∀ (p : String), (p = "h" ∨ p = "history") →
      BuiltInCommand.runRet [p] [] = .val (some false)) ∧
    (∀ (p a : String) (n : Int) (hist : List Cmd), (p = "h" ∨ p = "history") →
      pyInt a = some n → n > (hist.length : Int) →
      BuiltInCommand.runRet [p, a] hist = .val (some true)) ∧
    (∀ (p a : String) (n : Int) (hist : List Cmd), (p = "h" ∨ p = "history") →
      pyInt a = some n → 1 ≤ n → n ≤ (hist.length : Int) →
      BuiltInCommand.runRet [p, a] hist = .val none) ∧
    (∀ (v : Option Bool), loopAppends (.ret v) = true ↔ v = some true) := by
  refine ⟨?_, ?_, ?_, ?_, ?_, ?_, ?_⟩
  · intro args hist hmem
    simp only [List.mem_cons, List.mem_singleton, List.not_mem_nil, or_false] at hmem
    rcases hmem with h | h | h <;> rw [List.headD_eq_head?] at h <;>
      simp [BuiltInCommand.runRet, h]
  · intro args hist hmem hargs
    simp only [List.mem_cons, List.mem_singleton, List.not_mem_nil, or_false] at hmem
    rcases hargs with hlen | hsome
    · have hng : ¬ args.length > 1 := by omega
      rcases hmem with h | h | h <;> rw [List.headD_eq_head?] at h <;>
        simp [BuiltInCommand.runRet, h, hng]
    · obtain ⟨n, hn⟩ := Option.isSome_iff_exists.mp hsome
      rw [List.getD_eq_getElem?_getD] at hn
      rcases hmem with h | h | h <;> rw [List.headD_eq_head?] at h <;>
        simp [BuiltInCommand.runRet, h, hn]
  · intro p hist hp hne
    have hlen : hist.length ≠ 0 := fun h0 => hne (List.length_eq_zero.mp h0)
    rcases hp with rfl | rfl <;> simp [BuiltInCommand.runRet, hlen]
  · intro p hp
    rcases hp with rfl | rfl <;> decide
  · intro p a n hist hp hn hgt
    rcases hp with rfl | rfl <;> simp [BuiltInCommand.runRet, hn, History.run, hgt]
  · intro p a n hist hp hn h1 h2
    have hng : ¬ (n > (hist.length : Int)) := by omega
    have h0 : (0 : Int) ≤ n - 1 := by omega
    have hlt : (n - 1).toNat < hist.length := by omega
    rcases hp with rfl | rfl <;>
      simp [BuiltInCommand.runRet, hn, History.run, hng, pyGet, h0] <;>
      simp [List.getElem?_eq_getElem (show n.toNat - 1 < hist.length by omega)]
  · intro v
    rcases v with _ | b
    · simp [loopAppends]
    · rcases b with _ | _ <;> simp [loopAppends]

/-- Witness for `C3_amended`: each case at a concrete invocation. -/
theorem C3_amended_witness :
    BuiltInCommand.runRet ["pwd"] [] = .val (some true) ∧
    BuiltInCommand.runRet ["fg", "1"] [] = .val (some true) ∧
    BuiltInCommand.runRet ["h"] [pwdCmd] = .val (some true) ∧
    BuiltInCommand.runRet ["h"] [] = .val (some false) ∧
    BuiltInCommand.runRet ["h", "5"] [pwdCmd] = .val (some true) ∧
    BuiltInCommand.runRet ["h", "1"] [pwdCmd] = .val none ∧
    (loopAppends (.ret (some true)) = true ↔
      (some true : Option Bool) = some true) :=
  ⟨C3_amended.1 ["pwd"] [] (by decide),
   C3_amended.2.1 ["fg", "1"] [] (by decide) (Or.inr (by decide)),
   C3_amended.2.2.1 "h" [pwdCmd] (Or.inl rfl) (by decide),
   C3_amended.2.2.2.1 "h" (Or.inl rfl),
   C3_amended.2.2.2.2.1 "h" "5" 5 [pwdCmd] (Or.inl rfl) (by decide) (by decide),
   C3_amended.2.2.2.2.2.1 "h" "1" 1 [pwdCmd] (Or.inl rfl) (by decide)
     (by decide) (by decide),
   C3_amended.2.2.2.2.2.2 (some true)⟩

/-- C4: the claim says the leader closes each fresh pipe's write end before
spawning the next stage.  The source's leader contains no `os.close` call at
all: `closedFds` is empty for every pipeline, and for the two-stage pipeline
`echo hello | tr a-z A-Z` the write end (fd 4) of the pipe the last stage
reads (fd 3) is still open in the leader while the last stage runs — the
last stage can never see EOF, so the pipeline stalls. -/
theorem C4_leader_never_closes :
    (∀ (stages : List Stage) (lastStatus : Nat),
      (CommandPipeList.leaderRun stages lastStatus).closedFds = []) ∧
    (CommandPipeList.leaderRun [echoStage, trStage] 0).spawns =
      [⟨0, 4, true⟩, ⟨3, 1, false⟩] ∧
    4 ∈ (CommandPipeList.leaderRun [echoStage, trStage] 0).openFds :=
  ⟨fun _ _ => rfl, by decide, by decide⟩

/-- C5 counterexample: with the last stage of `echo hello | tr a-z A-Z`
terminating with exit status 3, the leader's own exit status is 0, not 3 —
line 322 discards the `(child, status)` result and line 325's bare `exit()`
exits with 0. -/
theorem C5_counterexample :
    (CommandPipeList.leaderRun [echoStage, trStage] 3).exitCode = 0 ∧
    (CommandPipeList.leaderRun [echoStage, trStage] 3).exitCode ≠ 3 := by
  decide

/-- C5 (amended): for every pipeline, the leader exits with status 0
regardless of the last stage's exit status; the shell never observes the
final stage's status through a pipeline. -/
theorem C5_amended (stages : List Stage) (lastStatus : Nat) :
    (CommandPipeList.leaderRun stages lastStatus).exitCode = 0 := rfl

/-- C6 counterexample: after `kill_all` on a table holding one job, that job
is still in the table — `kill_all` only sends signals and removes nothing. -/
theorem C6_counterexample :
    (Jobs.kill_all ⟨[⟨pwdCmd, 5, 1⟩], [], 0⟩).1.jobs ≠ [] := by decide

/-- C6 (amended): `kill_all` sends SIGKILL to every tracked job's pid, in
table order, and leaves the job table (and the rest of the state) exactly
as it was; entries are only removed later by reaper threads, not by
`kill_all` itself. -/
theorem C6_amended (s : JobsState) :
    (Jobs.kill_all s).1 = s ∧
    (Jobs.kill_all s).2 = s.jobs.map (fun j => (j.pid, "SIGKILL")) :=
  ⟨rfl, killAllLoop_eq_map s.jobs⟩

/-- C7: an input line consisting only of `&` is NOT treated like empty
input.  Tokenizing `&` yields the single segment `['&']`; the loop pops the
trailing `&`, leaving an empty segment, and then `command_strings[0][0]`
raises an uncaught `IndexError` that crashes the read-eval loop — whereas
the empty line is skipped cleanly. -/
theorem C7_ampersand_line_crashes :
    parse_line "&" = [["&"]] ∧
    processLine "&" = .error "IndexError" ∧
    processLine "" = .ok none := by decide

/-- C8 counterexample: `Command.__str__` joins `arguments + ['']` for a
non-background command, so an extra space is always appended: `pwd` renders
as `"pwd "` and its history entry as `"[1]\tpwd "`, not `"pwd"` /
`"[1]\tpwd"` as the claim's "nothing appended otherwise" requires. -/
theorem C8_counterexample :
    Command.str ["pwd"] false = "pwd " ∧
    Command.str ["pwd"] false ≠ "pwd" ∧
    historyLine 1 pwdCmd = "[1]\tpwd " ∧
    historyLine 1 pwdCmd ≠ "[1]\tpwd" := by decide

/-- C8 (amended): a command's rendering is its words joined by single
spaces, followed by `" &"` when the background flag is set and by a single
trailing space otherwise (the join of `arguments + ['']`); pipeline
rendering joins the stage renderings with `" | "`, and the history line for
entry i is `[i]`, a tab, and the rendering. -/
theorem C8_amended (arguments : List String) (background : Bool)
    (h : arguments ≠ []) :
    Command.str arguments background =
      pyJoin " " arguments ++ (if background then " &" else " ") ∧
    (∀ (stages : List Stage) (b : Bool),
      Cmd.str (.pipeList stages b) = pyJoin " | " (stages.map Stage.str)) ∧
    (∀ (i : Nat) (c : Cmd),
      historyLine i c = "[" ++ toString i ++ "]\t" ++ c.str) := by
  refine ⟨?_, fun _ _ => rfl, fun _ _ => rfl⟩
  unfold Command.str
  rw [pyJoin_concat " " arguments _ h]
  cases background <;> rw [String.append_assoc] <;> rfl

/-- Witness for `C8_amended` at the `pwd` command. -/
theorem C8_amended_witness :
    (["pwd"] : List String) ≠ [] ∧
    Command.str ["pwd"] false = pyJoin " " ["pwd"] ++ " " :=
  ⟨by decide, (C8_amended ["pwd"] false (by decide)).1⟩

/-- `Jobs.start_process` with an empty stopped stack only prints
`no stopped processes` (lines 433–435). -/
theorem start_process_empty (s : JobsState) (jn : Int) (bg : Bool)
    (w : WaitOutcome) (h : s.stopped = []) :
    Jobs.start_process s jn bg w = .ok (s, ["no stopped processes"], []) := by
  simp [Jobs.start_process, h]

/-- C9: every `fg` or `bg` invocation (with or without a job-number
argument) while the stopped stack is empty hits the guard on line 433: the
shell prints `no stopped processes`, raises nothing, changes neither the
job table nor the stopped stack, and sends no signal. -/
theorem C9_empty_stack_safe (s : JobsState) (arguments : List String)
    (background : Bool) (w : WaitOutcome) (hstop : s.stopped = [])
    (hargs : arguments.length ≤ 1 ∨ (pyInt (arguments.getD 1 "")).isSome) :
    BuiltInCommand.fgBg s arguments background w =
      .ok (s, ["no stopped processes"], []) := by
  unfold BuiltInCommand.fgBg
  by_cases hl : arguments.length > 1
  · rw [if_pos hl]
    rcases hargs with h1 | h2
    · exact absurd hl (by omega)
    · obtain ⟨n, hn⟩ := Option.isSome_iff_exists.mp h2
      rw [hn]
      simp only [start_process_empty s n background w hstop]
  · rw [if_neg hl, start_process_empty s 0 background w hstop]

/-- Witness for `C9_empty_stack_safe`: `fg 1` with a running job but nothing
stopped. -/
theorem C9_empty_stack_witness :
    (JobsState.mk [⟨pwdCmd, 5, 1⟩] [] 0).stopped = [] ∧
    BuiltInCommand.fgBg ⟨[⟨pwdCmd, 5, 1⟩], [], 0⟩ ["fg", "1"] false
        (.finished 5 0) =
      .ok (⟨[⟨pwdCmd, 5, 1⟩], [], 0⟩, ["no stopped processes"], []) :=
  ⟨rfl, C9_empty_stack_safe ⟨[⟨pwdCmd, 5, 1⟩], [], 0⟩ ["fg", "1"] false
    (.finished 5 0) rfl (Or.inr (by decide))⟩

/-- C10: a single built-in entered with a trailing `&` is built as a
`BuiltInCommand` with the background flag set; its `run` makes no fork,
never yields a `(pid, status)` tuple (so lines 102–105 register no job),
the dispatcher ignores the background flag entirely, and the loop's
job-registration test is false on every dispatcher value. -/
theorem C10_builtin_background (seg : List String) (w0 : String) (hist : List Cmd)
    (pid : Nat) (st : PStatus)
    (h0 : seg.head? = some w0) (hb : w0 ∈ builtInCommands) :
    processSegments [seg ++ ["&"]] =
      .ok (some (.single (.builtin seg true))) ∧
    (Cmd.runModel (.single (.builtin seg true)) hist pid st).2 = 0 ∧
    (∀ (b : Bool), Cmd.runModel (.single (.builtin seg b)) hist pid st =
      Cmd.runModel (.single (.builtin seg true)) hist pid st) ∧
    (∀ (p' : Nat) (s' : PStatus),
      (Cmd.runModel (.single (.builtin seg true)) hist pid st).1 ≠
        .result (.tup p' s')) ∧
    (∀ (v : Option Bool), loopRegistersJob (.result (.ret v)) = false) := by
  refine ⟨?_, rfl, fun _ => rfl, ?_, fun _ => rfl⟩
  · simp [processSegments, List.getLast?_concat, List.dropLast_concat,
      buildStage, h0, hb]
    rfl
  · intro p' s'
    rcases hr : BuiltInCommand.runRet seg hist with _ | m | v <;>
      simp [Cmd.runModel, hr]

/-- Witness for `C10_builtin_background` at the input `pwd &`. -/
theorem C10_builtin_background_witness :
    (["pwd"] : List String).head? = some "pwd" ∧
    "pwd" ∈ builtInCommands ∧
    processSegments [["pwd", "&"]] =
      .ok (some (.single (.builtin ["pwd"] true))) :=
  ⟨rfl, by decide,
   (C10_builtin_background ["pwd"] "pwd" [] 0 .pnone rfl (by decide)).1⟩

end PyshModel
